import Mathlib

/-!
Verification development for the multi-tenant-db repository.

Shallow embedding of the tenant-aware session and routing core:
the tenant store registry (internal/mysql/database.go), the session
variable store (the SessionVariables iteration with user and session
variable maps), the command dispatcher (internal/mysql/handler.go with
the query handlers in mysql/handlers.go), and the query audit log
(internal/mysql/query_logger.go).

Modelling conventions:
* Go strings are Lean `String`s; the character-level helpers below mirror
  the Go standard-library functions used by the code (strings.Contains,
  strings.HasPrefix, strings.Fields, strings.Trim, strings.ToLower for the
  ASCII identifiers and SQL keywords that appear in queries, strconv.Atoi).
* A `*sql.DB` handle is modelled as a natural number allocated from a
  counter: `sql.Open` always hands out a fresh pointer, and pointer
  equality of handles is the identity of those numbers.  Open failures on
  in-memory databases are environment failures and are not modelled.
* The SQLite engine behind pass-through SQL is an abstract oracle
  (`Engine`).  The parts of store state that the code inspects directly
  (schema introspection for DESCRIBE, the seeded tables) are modelled
  concretely in `Store`.
* Go `float64` arithmetic in the statistics is modelled with exact
  rationals (`ℚ`).
* Mutexes guard the maps in the source; the model is sequential, which is
  the linearised behaviour those locks enforce.
-/

/-- ASCII lower-casing of one character, as Go strings.ToLower acts on the
ASCII letters that occur in the SQL keywords and identifiers handled here. -/
def charLower (c : Char) : Char :=
  if c.toNat ≥ 65 ∧ c.toNat ≤ 90 then Char.ofNat (c.toNat + 32) else c

/-- Whitespace test matching Go strings.TrimSpace / regexp \s on the
characters that occur in statements (space, tab, newline, carriage return). -/
def isWs (c : Char) : Bool :=
  c = ' ' || c = '\t' || c = '\n' || c = '\r'

/-- Word character of Go regexp \w : [0-9A-Za-z_]. -/
def isWordChar (c : Char) : Bool :=
  (c ≥ 'a' && c ≤ 'z') || (c ≥ 'A' && c ≤ 'Z') || (c ≥ '0' && c ≤ '9') || c = '_'

def strLower (s : String) : String :=
  String.mk (s.toList.map charLower)

def strTrim (s : String) : String :=
  String.mk (((s.toList.dropWhile isWs).reverse.dropWhile isWs).reverse)

/-- List-level Go strings.HasPrefix. -/
def listStarts : List Char → List Char → Bool
  | [], _ => true
  | _ :: _, [] => false
  | a :: p, b :: l => a = b && listStarts p l

/-- List-level Go strings.Contains (substring occurrence). -/
def listHasSub (p : List Char) : List Char → Bool
  | [] => listStarts p []
  | b :: l => listStarts p (b :: l) || listHasSub p l

def strStarts (s pre : String) : Bool := listStarts pre.toList s.toList

def strHasSub (s sub : String) : Bool := listHasSub sub.toList s.toList

theorem dropWhile_len_le {α : Type} (p : α → Bool) (l : List α) :
    (l.dropWhile p).length ≤ l.length := by
  induction l with
  | nil => simp [List.dropWhile]
  | cons a l ih =>
    by_cases h : p a
    · simp [List.dropWhile, h]; omega
    · simp [List.dropWhile, h]

/-- Go strings.Fields: split on whitespace, dropping empty fields. -/
def goFieldsAux (l : List Char) : List String :=
  match l with
  | [] => []
  | c :: cs =>
    if isWs c then goFieldsAux cs
    else
      String.mk (c :: cs.takeWhile (fun d => !isWs d)) ::
        goFieldsAux (cs.dropWhile (fun d => !isWs d))
termination_by l.length
decreasing_by
  · simp only [List.length_cons]; omega
  · simp only [List.length_cons]
    exact Nat.lt_succ_of_le (dropWhile_len_le _ _)

def goFields (s : String) : List String := goFieldsAux s.toList

/-- Go strings.Trim with the cutset of the three SQL quote characters
(double quote, single quote, backtick), written with \x escapes. -/
def quoteCutset : List Char := "\x22\x27\x60".toList

def trimQuotes (s : String) : String :=
  String.mk (((s.toList.dropWhile (quoteCutset.contains ·)).reverse.dropWhile
    (quoteCutset.contains ·)).reverse)

/-- Go strconv.Atoi: optional sign, nonempty digit run, nothing else, and the
result must fit in a 64-bit int (out-of-range input is an error, i.e. none). -/
def goAtoi (s : String) : Option Int :=
  let cs := s.toList
  let (sign, digits) :=
    match cs with
    | '-' :: rest => ((-1 : Int), rest)
    | '+' :: rest => ((1 : Int), rest)
    | _ => ((1 : Int), cs)
  if digits = [] then none
  else if digits.all Char.isDigit then
    let n : Nat := digits.foldl (fun acc c => acc * 10 + (c.toNat - 48)) 0
    let v : Int := sign * n
    if -(2 ^ 63) ≤ v ∧ v ≤ 2 ^ 63 - 1 then some v else none
  else none

/-- A Go interface{} value as it flows through session variables and result
cells: integers, strings, SQL NULL (Go nil), reals and raw byte slices.
The session code only ever stores integers and strings (a nil assignment
unsets the variable instead). -/
inductive Value
  | vInt (n : Int)
  | vStr (s : String)
  | vNull
  | vReal (q : ℚ)
  | vBytes (s : String)
deriving DecidableEq, Repr

/-- Go fmt.Sprintf("%v", v) for the values the session code stores
(integers and strings; nil prints as the Go nil marker).  Real formatting
is not exercised by any modelled path. -/
def goFormat : Value → String
  | .vInt n => toString n
  | .vStr s => s
  | .vNull => "<nil>"
  | .vReal _ => "real"
  | .vBytes s => s

/-- Association list insert with Go map overwrite semantics: the key maps to
the new value, all other keys are untouched. -/
def alSet (m : List (String × Value)) (k : String) (v : Value) :
    List (String × Value) :=
  (k, v) :: m.filter (fun p => p.1 ≠ k)

/-- Association list delete, Go delete(m, k). -/
def alDel (m : List (String × Value)) (k : String) : List (String × Value) :=
  m.filter (fun p => p.1 ≠ k)

def alGet (m : List (String × Value)) (k : String) : Option Value :=
  m.lookup k

/-- SessionVariables: the @@ session variable map and the @ user variable
map, keys lower-cased on every access (session.go iteration with both maps). -/
structure SessionVariables where
  sessionVars : List (String × Value)
  userVars : List (String × Value)
deriving DecidableEq, Repr

/-- The protocol-compatibility defaults installed by NewSessionVariables. -/
def defaultSessionVars : List (String × Value) :=
  [("autocommit", .vInt 1),
   ("sql_mode", .vStr ""),
   ("character_set_client", .vStr "utf8mb4"),
   ("character_set_connection", .vStr "utf8mb4"),
   ("character_set_results", .vStr "utf8mb4"),
   ("collation_connection", .vStr "utf8mb4_general_ci"),
   ("time_zone", .vStr "SYSTEM"),
   ("tx_isolation", .vStr "REPEATABLE-READ"),
   ("version_comment", .vStr "Multitenant DB")]

def newSessionVariables : SessionVariables :=
  ⟨defaultSessionVars, []⟩

def SessionVariables.setVar (s : SessionVariables) (name : String) (v : Value) :
    SessionVariables :=
  { s with sessionVars := alSet s.sessionVars (strLower name) v }

def SessionVariables.setUser (s : SessionVariables) (name : String) (v : Value) :
    SessionVariables :=
  { s with userVars := alSet s.userVars (strLower name) v }

def SessionVariables.getVar (s : SessionVariables) (name : String) : Option Value :=
  alGet s.sessionVars (strLower name)

def SessionVariables.getUser (s : SessionVariables) (name : String) : Option Value :=
  alGet s.userVars (strLower name)

def SessionVariables.unsetVar (s : SessionVariables) (name : String) :
    SessionVariables :=
  { s with sessionVars := alDel s.sessionVars (strLower name) }

def SessionVariables.unsetUser (s : SessionVariables) (name : String) :
    SessionVariables :=
  { s with userVars := alDel s.userVars (strLower name) }

/-- One column of a SQLite table as PRAGMA table_info reports it:
name, declared type, the NOT NULL flag, the default value, the
primary-key flag (database.go seeds these; handlers.go introspects them). -/
structure Column where
  name : String
  dataType : String
  notNull : Bool
  dflt : Value
  pk : Bool
deriving DecidableEq, Repr

/-- A user table: its columns and its rows. -/
structure TableData where
  columns : List Column
  rows : List (List Value)
deriving DecidableEq, Repr

/-- An isolated per-tenant SQLite store.  The handle number stands for the
*sql.DB pointer; the tables are the store contents that the code inspects
directly (DESCRIBE introspection, SHOW TABLES, seeding). -/
structure Store where
  handle : Nat
  tables : List (String × TableData)
deriving DecidableEq, Repr

/-- The baseline schema and sample rows installed by initSampleData:
a users table and a products table, three sample rows each. -/
def seedTables : List (String × TableData) :=
  [("users",
    { columns :=
        [⟨"id", "INTEGER", false, .vNull, true⟩,
         ⟨"name", "TEXT", true, .vNull, false⟩,
         ⟨"email", "TEXT", false, .vNull, false⟩,
         ⟨"age", "INTEGER", false, .vNull, false⟩],
      rows :=
        [[.vInt 1, .vStr "Alice", .vStr "alice@example.com", .vInt 30],
         [.vInt 2, .vStr "Bob", .vStr "bob@example.com", .vInt 25],
         [.vInt 3, .vStr "Charlie", .vStr "charlie@example.com", .vInt 35]] }),
   ("products",
    { columns :=
        [⟨"id", "INTEGER", false, .vNull, true⟩,
         ⟨"name", "TEXT", true, .vNull, false⟩,
         ⟨"price", "REAL", false, .vNull, false⟩,
         ⟨"category", "TEXT", false, .vNull, false⟩],
      rows :=
        [[.vInt 1, .vStr "Laptop", .vReal (999.99 : ℚ), .vStr "electronics"],
         [.vInt 2, .vStr "Book", .vReal (19.99 : ℚ), .vStr "education"],
         [.vInt 3, .vStr "Coffee", .vReal (4.99 : ℚ), .vStr "beverages"]] })]

/-- A freshly opened and seeded store with the given handle (sql.Open
followed by initSampleData on the success path; a seeding failure would be
logged without failing the call and is not modelled). -/
def newStore (h : Nat) : Store :=
  ⟨h, seedTables⟩

/-- DatabaseManager: the tenant id → store map plus the handle allocator. -/
structure DatabaseManager where
  databases : List (String × Store)
  nextHandle : Nat
deriving DecidableEq, Repr

/-- NewDatabaseManager: the default store exists from the start. -/
def newDatabaseManager : DatabaseManager :=
  ⟨[("default", newStore 0)], 1⟩

/-- The empty tenant id denotes the default store
(GetOrCreateDatabase and getOrCreateLogDatabase both apply this). -/
def normalizeIdx (idx : String) : String :=
  if idx = "" then "default" else idx

/-- GetOrCreateDatabase: normalize the id, return the existing store, or
open, register and seed a fresh one. -/
def GetOrCreateDatabase (dm : DatabaseManager) (idx : String) :
    Store × DatabaseManager :=
  let i := normalizeIdx idx
  match dm.databases.lookup i with
  | some st => (st, dm)
  | none =>
    let st := newStore dm.nextHandle
    (st, ⟨(i, st) :: dm.databases, dm.nextHandle + 1⟩)

/-- GetDatabaseForSession: the tenant id is the string form of the user
variable idx; absent or nil yields the empty id, hence the default store. -/
def sessionIdx (s : SessionVariables) : String :=
  match s.getUser "idx" with
  | some v => if v = .vNull then "" else goFormat v
  | none => ""

def GetDatabaseForSession (dm : DatabaseManager) (s : SessionVariables) :
    Store × DatabaseManager :=
  GetOrCreateDatabase dm (sessionIdx s)

inductive DeleteError
  | cannotDeleteDefault
  | notFound (idx : String)
deriving DecidableEq, Repr

/-- DeleteDatabase: refuse the default id (empty or "default"), report a
missing store, otherwise close the store and drop the mapping. -/
def DeleteDatabase (dm : DatabaseManager) (idx : String) :
    Except DeleteError DatabaseManager :=
  if idx = "" ∨ idx = "default" then .error .cannotDeleteDefault
  else
    match dm.databases.lookup idx with
    | none => .error (.notFound idx)
    | some _ =>
      .ok ⟨dm.databases.filter (fun p => p.1 ≠ idx), dm.nextHandle⟩

/-- ListDatabases: the known tenant ids. -/
def ListDatabases (dm : DatabaseManager) : List String :=
  dm.databases.map (·.1)

/-- Registry invariant: every handle is below the allocator, handles are
pairwise distinct, keys are pairwise distinct.  It holds for
NewDatabaseManager and is preserved by every registry operation. -/
def DMInv (dm : DatabaseManager) : Prop :=
  (∀ p ∈ dm.databases, p.2.handle < dm.nextHandle) ∧
  (dm.databases.map (·.2.handle)).Nodup ∧
  (dm.databases.map (·.1)).Nodup

instance (dm : DatabaseManager) : Decidable (DMInv dm) := by
  unfold DMInv; infer_instance

/-- The dispatcher's statement classes (HandleQuery switch, priority order). -/
inductive QueryClass
  | showDatabases
  | showTables
  | showVariables
  | describeTable
  | setCmd
  | selectVariable
  | passThrough
deriving DecidableEq, Repr

/-- HandleQuery classification: lower-case the trimmed statement, first
match wins.  SET is only intercepted when the text also contains an @;
SELECT is only treated as a variable read when the text contains an @. -/
def classifyQuery (query : String) : QueryClass :=
  let ql := strLower (strTrim query)
  if strStarts ql "show databases" then .showDatabases
  else if strStarts ql "show tables" then .showTables
  else if strStarts ql "show variables" then .showVariables
  else if strStarts ql "describe " || strStarts ql "desc " then .describeTable
  else if strStarts ql "set " && strHasSub ql "@" then .setCmd
  else if strHasSub ql "@" && strStarts ql "select" then .selectVariable
  else .passThrough

/-- The four captures of the HandleSet regex
(?i)set\s+(?:session\s+)?(@{0,2})(\w+)\s*(:?=)\s*(.+) :
number of @ signs, variable name, assignment operator, raw value text. -/
structure SetMatch where
  ats : Nat
  name : String
  op : String
  value : String
deriving DecidableEq, Repr

/-- Case-insensitive literal keyword match; returns the remaining input. -/
def matchKeyword : List Char → List Char → Option (List Char)
  | [], cs => some cs
  | _ :: _, [] => none
  | k :: ks, c :: cs => if charLower c = k then matchKeyword ks cs else none

/-- \s+ : at least one whitespace character, consumed greedily (nothing that
can follow it in this regex starts with whitespace, so no backtracking). -/
def wsPlus (cs : List Char) : Option (List Char) :=
  match cs with
  | c :: rest => if isWs c then some (rest.dropWhile isWs) else none
  | [] => none

/-- The value capture \s*(.+): drop greedily matched whitespace, then take
at least one character, stopping at a newline (regexp . excludes \n); the
greedy \s* backs off just enough to leave the dot something to match. -/
def matchValue (cs : List Char) : Option String :=
  let stripped := cs.dropWhile isWs
  match stripped with
  | _ :: _ => some (String.mk (stripped.takeWhile (fun d => d ≠ '\n')))
  | [] =>
    match cs.reverse.dropWhile (fun d => d = '\n') with
    | c :: _ => some (String.mk [c])
    | [] => none

/-- (@{0,2})(\w+)\s*(:?=)\s*(.+) after the keywords: at signs (greedy,
up to two), variable name, optional spacing, = or :=, then the value. -/
def matchAssign (ats : Nat) (cs : List Char) : Option SetMatch :=
  let nm := cs.takeWhile isWordChar
  if nm = [] then none
  else
    let rest := (cs.dropWhile isWordChar).dropWhile isWs
    match rest with
    | ':' :: '=' :: r =>
      (matchValue r).map (fun v => ⟨ats, String.mk nm, ":=", v⟩)
    | '=' :: r =>
      (matchValue r).map (fun v => ⟨ats, String.mk nm, "=", v⟩)
    | _ => none

def matchAts (cs : List Char) : Option SetMatch :=
  match cs with
  | '@' :: '@' :: r => matchAssign 2 r
  | '@' :: r => matchAssign 1 r
  | r => matchAssign 0 r

/-- One attempt of the whole SET regex starting at this input position. -/
def parseSetAt (cs : List Char) : Option SetMatch :=
  match matchKeyword "set".toList cs with
  | none => none
  | some r1 =>
    match wsPlus r1 with
    | none => none
    | some r2 =>
      let withSession : Option SetMatch :=
        match matchKeyword "session".toList r2 with
        | some r3 =>
          match wsPlus r3 with
          | some r4 => matchAts r4
          | none => none
        | none => none
      match withSession with
      | some m => some m
      | none => matchAts r2

/-- The unanchored regex search: the leftmost position at which the SET
assignment pattern matches (FindStringSubmatch). -/
def findSetMatch : List Char → Option SetMatch
  | [] => none
  | c :: rest =>
    match parseSetAt (c :: rest) with
    | some m => some m
    | none => findSetMatch rest

/-- HandleSet value conversion: NULL in any case unsets (none); true or the
bare digit 1 is integer 1; false or the bare digit 0 is integer 0; a value
Atoi accepts is that integer; anything else is the quote-trimmed string. -/
def parseSetValue (raw : String) : Option Value :=
  let v := trimQuotes raw
  if strLower v = "null" then none
  else if strLower v = "true" || v = "1" then some (.vInt 1)
  else if strLower v = "false" || v = "0" then some (.vInt 0)
  else
    match goAtoi v with
    | some n => some (.vInt n)
    | none => some (.vStr v)

/-- HandleSet: parse the assignment, convert the value, then one @ targets
the user-variable map and zero or two @ target the session-variable map;
a nil value unsets instead of setting. -/
def HandleSet (s : SessionVariables) (query : String) :
    Except String SessionVariables :=
  match findSetMatch query.toList with
  | none => .error ("invalid SET syntax: " ++ query)
  | some m =>
    let varName := strLower m.name
    match parseSetValue m.value with
    | none =>
      if m.ats = 1 then .ok (s.unsetUser varName) else .ok (s.unsetVar varName)
    | some v =>
      if m.ats = 1 then .ok (s.setUser varName v) else .ok (s.setVar varName v)

/-- One reference found by the HandleSelectVariable regex
(@{1,2})(?:session\.)?(\w+) : number of @ signs and the captured name. -/
def matchRefAt (t : List Char) : Option (String × Nat) :=
  if listStarts "session.".toList t then
    let u := t.drop 8
    let w := u.takeWhile isWordChar
    if w.length > 0 then some (String.mk w, 8 + w.length)
    else
      let w2 := t.takeWhile isWordChar
      if w2.length > 0 then some (String.mk w2, w2.length) else none
  else
    let w2 := t.takeWhile isWordChar
    if w2.length > 0 then some (String.mk w2, w2.length) else none

/-- FindAllStringSubmatch for the variable-reference regex: scan left to
right, collect non-overlapping matches, greedy @@ before @. -/
def scanRefs (l : List Char) : List (Nat × String) :=
  match l with
  | [] => []
  | '@' :: '@' :: rest =>
    match matchRefAt rest with
    | some (nm, k) => (2, nm) :: scanRefs (rest.drop k)
    | none => scanRefs ('@' :: rest)
  | '@' :: rest =>
    match matchRefAt rest with
    | some (nm, k) => (1, nm) :: scanRefs (rest.drop k)
    | none => scanRefs rest
  | _ :: rest => scanRefs rest
termination_by l.length
decreasing_by
  · simp only [List.length_cons, List.length_drop]; omega
  · simp only [List.length_cons]; omega
  · simp only [List.length_cons, List.length_drop]; omega
  · simp only [List.length_cons]; omega
  · simp only [List.length_cons]; omega

/-- A variable-read result: column names and the single row of cells
(nil cells are SQL NULL). -/
structure VarReadResult where
  names : List String
  row : List Value
deriving DecidableEq, Repr

/-- HandleSelectVariable: resolve every @name/@@name reference.  With a
single reference, a missing user variable reads as NULL but a missing
session variable is a hard unknown-variable error; with several
references, both kinds silently read as NULL. -/
def HandleSelectVariable (s : SessionVariables) (query : String) :
    Except String VarReadResult :=
  match scanRefs query.toList with
  | [] => .error ("no variables found in query: " ++ query)
  | [(ats, nm0)] =>
    let nm := strLower nm0
    if ats = 1 then
      .ok ⟨["@" ++ nm], [(s.getUser nm).getD .vNull]⟩
    else
      match s.getVar nm with
      | none => .error ("unknown session variable: " ++ nm)
      | some v => .ok ⟨["@@" ++ nm], [v]⟩
  | ms =>
    .ok ⟨ms.map (fun m => (if m.1 = 1 then "@" else "@@") ++ strLower m.2),
         ms.map (fun m =>
           (if m.1 = 1 then s.getUser (strLower m.2)
            else s.getVar (strLower m.2)).getD .vNull)⟩

/-- HandleDescribe table-name choice: any occurrence of "users" in the
lower-cased statement wins, then any occurrence of "products", and only
otherwise the second whitespace-separated word. -/
def describeTarget (query : String) : Option String :=
  let ql := strLower query
  if strHasSub ql "users" then some "users"
  else if strHasSub ql "products" then some "products"
  else
    match goFields ql with
    | _ :: t :: _ => some t
    | _ => none

/-- SQLite declared type to MySQL-style type display (HandleDescribe). -/
def mysqlTypeOf (dataType : String) : String :=
  if strLower dataType = "integer" then "int(11)"
  else if strLower dataType = "text" then "varchar(255)"
  else if strLower dataType = "real" then "decimal(10,2)"
  else dataType

/-- One DESCRIBE output row: Field, Type, Null, Key, Default, Extra. -/
def describeRow (c : Column) : List Value :=
  [.vStr c.name,
   .vStr (mysqlTypeOf c.dataType),
   .vStr (if c.notNull then "NO" else "YES"),
   .vStr (if c.pk then "PRI" else ""),
   c.dflt,
   .vStr (if c.pk && strLower c.dataType = "integer" then "auto_increment" else "")]

/-- PRAGMA table_info rows for a table of the store; a missing table yields
no rows (the PRAGMA itself does not fail). -/
def pragmaTableInfo (st : Store) (table : String) : List Column :=
  match st.tables.lookup table with
  | some td => td.columns
  | none => []

/-- A generic result-set shape: named fields plus rows of cells. -/
structure ResultSet where
  names : List String
  rows : List (List Value)
deriving DecidableEq, Repr

/-- Introspection of one table of a store as HandleDescribe renders it:
not-found when the PRAGMA reports no columns. -/
def introspect (st : Store) (table : String) : Except String ResultSet :=
  let cols := pragmaTableInfo st table
  if cols = [] then .error ("table " ++ table ++ " not found")
  else
    .ok ⟨["Field", "Type", "Null", "Key", "Default", "Extra"],
         cols.map describeRow⟩

/-- HandleDescribe against a resolved store: extract the table name, then
introspect it. -/
def HandleDescribe (st : Store) (query : String) : Except String ResultSet :=
  match describeTarget query with
  | none => .error "could not determine table name from query"
  | some t => introspect st t

/-- What a row-returning attempt on the backing engine produced:
column names and rows of driver cells. -/
structure ReadData where
  columns : List String
  rows : List (List Value)
deriving DecidableEq, Repr

/-- The abstract SQLite engine behind pass-through SQL: for a tenant store
and statement text, the outcome of db.Query and of db.Exec
(affected row count, last insert id). -/
structure Engine where
  runRead : String → String → Except String ReadData
  runExec : String → String → Except String (Int × Int)

/-- One interaction with a tenant store. -/
inductive StoreOp
  | readQ (idx : String) (query : String)
  | execQ (idx : String) (query : String)
deriving DecidableEq, Repr

/-- Driver []byte cells are coerced to text before building the result set
(executeSQLiteQuery row conversion). -/
def coerceCell : Value → Value
  | .vBytes b => .vStr b
  | v => v

/-- A dispatcher result: a result set, or an OK packet with the affected-row
count and (when positive) the last insert id. -/
inductive MyResult
  | resultSet (rs : ResultSet)
  | okPacket (affectedRows : Int) (insertId : Int)
deriving DecidableEq, Repr

/-- executeSQLiteQuery: try db.Query first; on any query error fall back to
db.Exec once; if that also fails, report only the translated exec error.
Returned as the Go (result, error) pair plus the trace of store attempts. -/
def executeSQLiteQuery (eng : Engine) (idx : String) (query : String) :
    Option MyResult × Option String × List StoreOp :=
  match eng.runRead idx query with
  | .ok rd =>
    (some (.resultSet ⟨rd.columns, rd.rows.map (fun r => r.map coerceCell)⟩),
     none, [.readQ idx query])
  | .error _ =>
    match eng.runExec idx query with
    | .ok (affected, lastId) =>
      (some (.okPacket affected (if lastId > 0 then lastId else 0)),
       none, [.readQ idx query, .execQ idx query])
    | .error e =>
      (none, some ("SQLite error: " ++ e), [.readQ idx query, .execQ idx query])

/-- The core's state as one connection's worker sees it: the shared tenant
store registry and the session of the current connection.  (The source
tracks the current connection id globally; with one worker per connection
the dispatcher always acts on that one session.) -/
structure ServerState where
  dbm : DatabaseManager
  session : SessionVariables
deriving DecidableEq, Repr

def initialServerState : ServerState :=
  ⟨newDatabaseManager, newSessionVariables⟩

/-- The table-list query HandleShowTables sends to the store. -/
def sqliteMasterSQL : String :=
  "SELECT name FROM sqlite_master WHERE type=\x27table\x27 AND name NOT LIKE \x27sqlite_%\x27"

/-- HandleShowDatabases row for one tenant id. -/
def showDatabasesName (idx : String) : String :=
  if idx = "" ∨ idx = "default" then "ephemeral_db"
  else "ephemeral_db_idx_" ++ idx

def exceptToPair {α : Type} : Except String α → Option α × Option String
  | .ok a => (some a, none)
  | .error e => (none, some e)

/-- HandleQuery: classify the statement and dispatch.  The outcome is the
Go (result, error) pair, the updated state, and the trace of tenant-store
interactions performed on the way. -/
def HandleQuery (eng : Engine) (st : ServerState) (query : String) :
    (Option MyResult × Option String) × ServerState × List StoreOp :=
  match classifyQuery query with
  | .showDatabases =>
    ((some (.resultSet ⟨["Database"],
        ([.vStr "information_schema"] :: [.vStr "mysql"] ::
         [.vStr "performance_schema"] :: [.vStr "sys"] ::
         (ListDatabases st.dbm).map (fun idx => [.vStr (showDatabasesName idx)]))⟩),
      none), st, [])
  | .showTables =>
    let (store, dbm1) := GetDatabaseForSession st.dbm st.session
    ((some (.resultSet ⟨["Tables_in_ephemeral_db"],
        store.tables.map (fun t => [.vStr t.1])⟩), none),
     { st with dbm := dbm1 }, [.readQ (normalizeIdx (sessionIdx st.session)) sqliteMasterSQL])
  | .showVariables =>
    ((some (.resultSet ⟨["Variable_name", "Value"],
        st.session.sessionVars.map (fun p => [.vStr p.1, p.2])⟩), none), st, [])
  | .describeTable =>
    let (store, dbm1) := GetDatabaseForSession st.dbm st.session
    let (r, e) := exceptToPair (HandleDescribe store query)
    ((r.map .resultSet, e), { st with dbm := dbm1 },
     match describeTarget query with
     | some t => [.readQ (normalizeIdx (sessionIdx st.session)) ("PRAGMA table_info(" ++ t ++ ")")]
     | none => [])
  | .setCmd =>
    match HandleSet st.session query with
    | .ok s' => ((some (.okPacket 0 0), none), { st with session := s' }, [])
    | .error e => ((none, some e), st, [])
  | .selectVariable =>
    let (r, e) := exceptToPair (HandleSelectVariable st.session query)
    ((r.map (fun vr => .resultSet ⟨vr.names, [vr.row]⟩), e), st, [])
  | .passThrough =>
    let (_store, dbm1) := GetDatabaseForSession st.dbm st.session
    let idx := normalizeIdx (sessionIdx st.session)
    let (r, e, ops) := executeSQLiteQuery eng idx query
    ((r, e), { st with dbm := dbm1 }, ops)

/-- One immutable audit log record (query_logs row). -/
structure LogEntry where
  id : Nat
  tenantId : String
  query : String
  executedAt : Nat
  durationMs : Int
  success : Bool
  errorMsg : String
  connectionId : String
deriving DecidableEq, Repr

/-- QueryLogger state: the map from tenant id to that tenant's log store. -/
structure QLState where
  logDatabases : List (String × List LogEntry)
deriving DecidableEq, Repr

def emptyQL : QLState := ⟨[]⟩

/-- getOrCreateLogDatabase: normalize the empty tenant id to default, reuse
the tenant's log database, or create (and register) an empty one. -/
def getOrCreateLogDatabase (s : QLState) (tenantID : String) :
    List LogEntry × QLState :=
  let t := normalizeIdx tenantID
  match s.logDatabases.lookup t with
  | some db => (db, s)
  | none => ([], ⟨s.logDatabases ++ [(t, [])]⟩)

/-- Association-list overwrite for log stores. -/
def alSetLog (m : List (String × List LogEntry)) (k : String)
    (v : List LogEntry) : List (String × List LogEntry) :=
  m.map (fun p => if p.1 = k then (k, v) else p)

/-- LogQuery: append one entry to the tenant's log (created lazily), with
the normalized tenant id stored in the row and an AUTOINCREMENT id. -/
def LogQuery (s : QLState) (tenantID query connectionID : String)
    (executedAt : Nat) (durationMs : Int) (success : Bool) (errorMsg : String) :
    QLState :=
  let t := normalizeIdx tenantID
  let (db, s1) := getOrCreateLogDatabase s t
  let entry : LogEntry :=
    ⟨db.length + 1, t, query, executedAt, durationMs, success, errorMsg, connectionID⟩
  ⟨alSetLog s1.logDatabases t (db ++ [entry])⟩

/-- ORDER BY executed_at DESC: later timestamps first (stable for ties). -/
def entGE (a b : LogEntry) : Prop := b.executedAt ≤ a.executedAt

instance : DecidableRel entGE := fun a b => Nat.decLe b.executedAt a.executedAt

instance : IsTotal LogEntry entGE := ⟨fun a b => Nat.le_total b.executedAt a.executedAt⟩

instance : IsTrans LogEntry entGE := ⟨fun _ _ _ h1 h2 => Nat.le_trans h2 h1⟩

/-- The WHERE clause of GetQueryLogs and GetQueryLogStats: the row's stored
tenant id must equal the requested one (the request is not normalized
here), and the optional time window bounds the execution time. -/
def logRowMatches (tenantID : String) (startTime endTime : Option Nat)
    (e : LogEntry) : Bool :=
  e.tenantId = tenantID &&
  (match startTime with | some t0 => t0 ≤ e.executedAt | none => true) &&
  (match endTime with | some t1 => e.executedAt ≤ t1 | none => true)

/-- GetQueryLogs: filter the tenant's log database by tenant id and time
window, order by execution time descending, then apply limit/offset.  The
LIMIT clause is emitted only for a positive limit and the OFFSET clause
only for a positive offset; an OFFSET clause without a LIMIT clause is a
SQLite syntax error (the grammar only allows OFFSET after LIMIT), so that
combination makes the whole call fail. -/
def GetQueryLogs (s : QLState) (tenantID : String) (limit offset : Int)
    (startTime endTime : Option Nat) :
    Except String (List LogEntry) × QLState :=
  let (db, s1) := getOrCreateLogDatabase s tenantID
  let sorted := List.insertionSort entGE (db.filter (logRowMatches tenantID startTime endTime))
  let r : Except String (List LogEntry) :=
    if limit > 0 then
      if offset > 0 then .ok ((sorted.drop offset.toNat).take limit.toNat)
      else .ok (sorted.take limit.toNat)
    else
      if offset > 0 then .error "failed to query logs: near OFFSET: syntax error"
      else .ok sorted
  (r, s1)

/-- The aggregate row GetQueryLogStats returns (float64 fields as exact
rationals). -/
structure QLStats where
  totalQueries : Nat
  successfulQueries : Nat
  failedQueries : Nat
  successRate : ℚ
  avgDurationMs : ℚ
  maxDurationMs : Int
  minDurationMs : Int
deriving DecidableEq, Repr

/-- GetQueryLogStats: COUNT/AVG/MAX/MIN over the tenant's rows with
COALESCE(..., 0) on the empty aggregate, and the success rate computed
only when the total is positive. -/
def GetQueryLogStats (s : QLState) (tenantID : String) : QLStats × QLState :=
  let (db, s1) := getOrCreateLogDatabase s tenantID
  let rows := db.filter (fun e => e.tenantId = tenantID)
  let total := rows.length
  let succ := (rows.filter (fun e => e.success)).length
  let failed := (rows.filter (fun e => !e.success)).length
  let durations := rows.map (·.durationMs)
  ({ totalQueries := total,
     successfulQueries := succ,
     failedQueries := failed,
     successRate := if total > 0 then (succ : ℚ) / (total : ℚ) * 100 else 0,
     avgDurationMs :=
       if total = 0 then 0 else ((durations.foldr (· + ·) 0 : Int) : ℚ) / (total : ℚ),
     maxDurationMs :=
       match durations with
       | [] => 0
       | d :: ds => ds.foldr max d,
     minDurationMs :=
       match durations with
       | [] => 0
       | d :: ds => ds.foldr min d }, s1)

/-- ListTenantLogs: the keys of the log-database map. -/
def ListTenantLogs (s : QLState) : List String :=
  s.logDatabases.map (·.1)

/-- The audit-log operations a caller can perform (Close aside). -/
inductive QLOp
  | logQ (tenant query conn : String) (time : Nat) (dur : Int) (succ : Bool) (err : String)
  | getLogs (tenant : String) (limit offset : Int) (t0 t1 : Option Nat)
  | getStats (tenant : String)
deriving DecidableEq, Repr

def applyOp (s : QLState) : QLOp → QLState
  | .logQ t q c time dur succ err => LogQuery s t q c time dur succ err
  | .getLogs t limit offset t0 t1 => (GetQueryLogs s t limit offset t0 t1).2
  | .getStats t => (GetQueryLogStats s t).2

def opTenant : QLOp → String
  | .logQ t _ _ _ _ _ _ => t
  | .getLogs t _ _ _ _ => t
  | .getStats t => t

/-- The sorted view of a tenant's matching audit rows (the inner SELECT of
GetQueryLogs before LIMIT/OFFSET). -/
def matchingSorted (s : QLState) (tenantID : String) (t0 t1 : Option Nat) :
    List LogEntry :=
  List.insertionSort entGE
    ((getOrCreateLogDatabase s tenantID).1.filter (logRowMatches tenantID t0 t1))

/-- An engine on which every statement fails both as a query and as a
mutation. -/
def failEngine : Engine :=
  ⟨fun _ _ => .error "read failed", fun _ _ => .error "exec failed"⟩

theorem lookup_cons_ne {β : Type} (k a : String) (b : β) (l : List (String × β))
    (h : k ≠ a) : ((a, b) :: l).lookup k = l.lookup k := by
  have hb : (k == a) = false := beq_eq_false_iff_ne.mpr h
  simp [List.lookup, hb]

theorem lookup_eq_some_mem {β : Type} (k : String) (l : List (String × β)) (v : β)
    (h : l.lookup k = some v) : (k, v) ∈ l := by
  induction l with
  | nil => simp [List.lookup] at h
  | cons p t ih =>
    obtain ⟨a, b⟩ := p
    by_cases hk : k = a
    · subst hk
      simp [List.lookup] at h
      simp [h]
    · rw [lookup_cons_ne k a b t hk] at h
      exact List.mem_cons_of_mem _ (ih h)

theorem lookup_filter_ne {β : Type} (k : String) (l : List (String × β)) :
    (l.filter (fun p => p.1 ≠ k)).lookup k = none := by
  induction l with
  | nil => rfl
  | cons p t ih =>
    obtain ⟨a, b⟩ := p
    by_cases hk : a = k
    · subst hk
      simpa using ih
    · have h1 : List.filter (fun p => decide (p.1 ≠ k)) ((a, b) :: t)
          = (a, b) :: List.filter (fun p => decide (p.1 ≠ k)) t := by
        simp [List.filter_cons, hk]
      simp only [ne_eq] at h1 ⊢
      rw [h1, lookup_cons_ne k a b _ (fun he => hk he.symm)]
      exact ih

theorem handles_ne_of_lookups (dm : DatabaseManager) (hInv : DMInv dm)
    (i j : String) (st st' : Store) (hij : i ≠ j)
    (h1 : dm.databases.lookup i = some st)
    (h2 : dm.databases.lookup j = some st') : st.handle ≠ st'.handle := by
  intro he
  have m1 := lookup_eq_some_mem i dm.databases st h1
  have m2 := lookup_eq_some_mem j dm.databases st' h2
  have : (i, st) = (j, st') := List.inj_on_of_nodup_map hInv.2.1 m1 m2 he
  exact hij (congrArg Prod.fst this)

theorem lookup_handle_lt (dm : DatabaseManager) (hInv : DMInv dm)
    (i : String) (st : Store) (h : dm.databases.lookup i = some st) :
    st.handle < dm.nextHandle :=
  hInv.1 (i, st) (lookup_eq_some_mem i dm.databases st h)

/-- C1: distinct (normalized) tenant ids receive stores with distinct
handles even across the state change made by the first call; repeating a
call with the same id returns the identical store; the empty id and
"default" are interchangeable. -/
theorem spec2proof_C1 (dm : DatabaseManager) (hInv : DMInv dm) (i j : String)
    (hij : normalizeIdx i ≠ normalizeIdx j) :
    ((GetOrCreateDatabase (GetOrCreateDatabase dm i).2 j).1.handle
        ≠ (GetOrCreateDatabase dm i).1.handle)
    ∧ (GetOrCreateDatabase (GetOrCreateDatabase dm i).2 i).1
        = (GetOrCreateDatabase dm i).1
    ∧ GetOrCreateDatabase dm "" = GetOrCreateDatabase dm "default" := by
  refine ⟨?_, ?_, ?_⟩
  · cases h1 : dm.databases.lookup (normalizeIdx i) with
    | some st =>
      have e1 : GetOrCreateDatabase dm i = (st, dm) := by
        simp [GetOrCreateDatabase, h1]
      rw [e1]
      cases h2 : dm.databases.lookup (normalizeIdx j) with
      | some st' =>
        have e2 : GetOrCreateDatabase dm j = (st', dm) := by
          simp [GetOrCreateDatabase, h2]
        rw [e2]
        exact (handles_ne_of_lookups dm hInv _ _ st' st (Ne.symm hij) h2 h1)
      | none =>
        have e2 : (GetOrCreateDatabase dm j).1 = newStore dm.nextHandle := by
          simp [GetOrCreateDatabase, h2]
        rw [e2]
        have := lookup_handle_lt dm hInv _ st h1
        simp [newStore]
        omega
    | none =>
      have e1 : GetOrCreateDatabase dm i =
          (newStore dm.nextHandle,
           ⟨(normalizeIdx i, newStore dm.nextHandle) :: dm.databases,
            dm.nextHandle + 1⟩) := by
        simp [GetOrCreateDatabase, h1]
      rw [e1]
      have hcons := lookup_cons_ne (β := Store) (normalizeIdx j) (normalizeIdx i)
        (newStore dm.nextHandle) dm.databases (Ne.symm hij)
      cases h2 : dm.databases.lookup (normalizeIdx j) with
      | some st' =>
        have e2 : (GetOrCreateDatabase
            ⟨(normalizeIdx i, newStore dm.nextHandle) :: dm.databases,
             dm.nextHandle + 1⟩ j).1 = st' := by
          simp only [GetOrCreateDatabase]
          rw [hcons, h2]
        rw [e2]
        have := lookup_handle_lt dm hInv _ st' h2
        simp [newStore]
        omega
      | none =>
        have e2 : (GetOrCreateDatabase
            ⟨(normalizeIdx i, newStore dm.nextHandle) :: dm.databases,
             dm.nextHandle + 1⟩ j).1 = newStore (dm.nextHandle + 1) := by
          simp only [GetOrCreateDatabase]
          rw [hcons, h2]
        rw [e2]
        simp [newStore]
  · cases h1 : dm.databases.lookup (normalizeIdx i) with
    | some st =>
      have e1 : GetOrCreateDatabase dm i = (st, dm) := by
        simp [GetOrCreateDatabase, h1]
      rw [e1, e1]
    | none =>
      have e1 : GetOrCreateDatabase dm i =
          (newStore dm.nextHandle,
           ⟨(normalizeIdx i, newStore dm.nextHandle) :: dm.databases,
            dm.nextHandle + 1⟩) := by
        simp [GetOrCreateDatabase, h1]
      rw [e1]
      simp [GetOrCreateDatabase, List.lookup]
  · simp [GetOrCreateDatabase, normalizeIdx]

/-- C1 witness at a fresh registry and the ids "a" and "b". -/
theorem spec2proof_C1_witness :
    DMInv newDatabaseManager
    ∧ normalizeIdx "a" ≠ normalizeIdx "b"
    ∧ (((GetOrCreateDatabase (GetOrCreateDatabase newDatabaseManager "a").2 "b").1.handle
          ≠ (GetOrCreateDatabase newDatabaseManager "a").1.handle)
       ∧ (GetOrCreateDatabase (GetOrCreateDatabase newDatabaseManager "a").2 "a").1
           = (GetOrCreateDatabase newDatabaseManager "a").1
       ∧ GetOrCreateDatabase newDatabaseManager ""
           = GetOrCreateDatabase newDatabaseManager "default") :=
  ⟨by decide, by decide, spec2proof_C1 newDatabaseManager (by decide) "a" "b" (by decide)⟩

/-- C2: deleting the default tenant (empty or "default") is a validation
error; deleting an unknown id is a not-found error; deleting an existing
non-default id removes the mapping, and the next GetOrCreateDatabase for
that id returns a store with a fresh handle carrying the seeded baseline
tables. -/
theorem spec2proof_C2 (dm : DatabaseManager) (hInv : DMInv dm) (idx : String) :
    DeleteDatabase dm "" = .error .cannotDeleteDefault
    ∧ DeleteDatabase dm "default" = .error .cannotDeleteDefault
    ∧ (idx ≠ "" → idx ≠ "default" → dm.databases.lookup idx = none →
        DeleteDatabase dm idx = .error (.notFound idx))
    ∧ (∀ st, idx ≠ "" → idx ≠ "default" → dm.databases.lookup idx = some st →
        ∃ dm', DeleteDatabase dm idx = .ok dm'
          ∧ dm'.databases.lookup idx = none
          ∧ (GetOrCreateDatabase dm' idx).1.handle ≠ st.handle
          ∧ (GetOrCreateDatabase dm' idx).1.tables = seedTables) := by
  refine ⟨by simp [DeleteDatabase], by simp [DeleteDatabase], ?_, ?_⟩
  · intro h1 h2 h3
    simp [DeleteDatabase, h1, h2, h3]
  · intro st h1 h2 h3
    refine ⟨⟨dm.databases.filter (fun p => p.1 ≠ idx), dm.nextHandle⟩, ?_, ?_, ?_, ?_⟩
    · simp [DeleteDatabase, h1, h2, h3]
    · exact lookup_filter_ne idx dm.databases
    · have hnorm : normalizeIdx idx = idx := by simp [normalizeIdx, h1]
      have hlk := lookup_filter_ne idx dm.databases
      have e1 : (GetOrCreateDatabase
          ⟨dm.databases.filter (fun p => p.1 ≠ idx), dm.nextHandle⟩ idx).1
          = newStore dm.nextHandle := by
        simp only [GetOrCreateDatabase, hnorm]
        simp only [ne_eq] at hlk
        rw [hlk]
      rw [e1]
      have := lookup_handle_lt dm hInv idx st h3
      simp [newStore]
      omega
    · have hnorm : normalizeIdx idx = idx := by simp [normalizeIdx, h1]
      have hlk := lookup_filter_ne idx dm.databases
      have e1 : (GetOrCreateDatabase
          ⟨dm.databases.filter (fun p => p.1 ≠ idx), dm.nextHandle⟩ idx).1
          = newStore dm.nextHandle := by
        simp only [GetOrCreateDatabase, hnorm]
        simp only [ne_eq] at hlk
        rw [hlk]
      rw [e1]
      rfl

/-- C2 witness: create "acme", delete it, recreate it. -/
theorem spec2proof_C2_witness :
    DMInv (GetOrCreateDatabase newDatabaseManager "acme").2
    ∧ ("acme" : String) ≠ ""
    ∧ ("acme" : String) ≠ "default"
    ∧ (GetOrCreateDatabase newDatabaseManager "acme").2.databases.lookup "acme"
        = some (newStore 1)
    ∧ (∃ dm', DeleteDatabase (GetOrCreateDatabase newDatabaseManager "acme").2 "acme" = .ok dm'
        ∧ dm'.databases.lookup "acme" = none
        ∧ (GetOrCreateDatabase dm' "acme").1.handle ≠ (newStore 1).handle
        ∧ (GetOrCreateDatabase dm' "acme").1.tables = seedTables) :=
  ⟨by decide, by decide, by decide, by rfl,
   ((spec2proof_C2 (GetOrCreateDatabase newDatabaseManager "acme").2 (by decide)
      "acme").2.2.2 (newStore 1) (by decide) (by decide) (by rfl))⟩

theorem set_start_shape (l : List Char)
    (h : listStarts ['s', 'e', 't', ' '] l = true) :
    ∃ t, l = 's' :: 'e' :: 't' :: ' ' :: t := by
  rcases l with _ | ⟨c1, _ | ⟨c2, _ | ⟨c3, _ | ⟨c4, t⟩⟩⟩⟩ <;>
    simp [listStarts] at h
  obtain ⟨h1, h2, h3, h4⟩ := h
  subst h1; subst h2; subst h3; subst h4
  exact ⟨t, rfl⟩

theorem classify_of_set_start (q : String)
    (h : strStarts (strLower (strTrim q)) "set " = true) :
    classifyQuery q =
      (if strHasSub (strLower (strTrim q)) "@" = true then QueryClass.setCmd
       else QueryClass.passThrough) := by
  have hl : ("set " : String).toList = ['s', 'e', 't', ' '] := rfl
  simp only [strStarts, hl] at h
  obtain ⟨t, ht⟩ := set_start_shape _ h
  have e1 : strStarts (strLower (strTrim q)) "show databases" = false := by
    simp only [strStarts, ht]; rfl
  have e2 : strStarts (strLower (strTrim q)) "show tables" = false := by
    simp only [strStarts, ht]; rfl
  have e3 : strStarts (strLower (strTrim q)) "show variables" = false := by
    simp only [strStarts, ht]; rfl
  have e4 : strStarts (strLower (strTrim q)) "describe " = false := by
    simp only [strStarts, ht]; rfl
  have e5 : strStarts (strLower (strTrim q)) "desc " = false := by
    simp only [strStarts, ht]; rfl
  have e6 : strStarts (strLower (strTrim q)) "set " = true := by
    simp only [strStarts, ht]; rfl
  have e7 : strStarts (strLower (strTrim q)) "select" = false := by
    simp only [strStarts, ht]; rfl
  simp only [classifyQuery, e1, e2, e3, e4, e5, e6, e7, Bool.or_self,
    Bool.true_and, Bool.and_false, if_false]
  cases hs : strHasSub (strLower (strTrim q)) "@" <;> simp [hs]

/-- C3 amended: a statement of the SET assignment grammar form is dispatched
as a variable assignment only when its text contains an @ character; such a
statement then mutates only session state (the tenant store registry is
untouched and no store operation happens).  The zero-@ grammar form is not
intercepted: it is classified pass-through, towards the tenant store. -/
theorem spec2proof_C3_amended (eng : Engine) (st : ServerState) (q : String)
    (m : SetMatch)
    (hpre : strStarts (strLower (strTrim q)) "set " = true)
    (_hm : findSetMatch q.toList = some m) :
    (strHasSub (strLower (strTrim q)) "@" = true →
      classifyQuery q = .setCmd
      ∧ (HandleQuery eng st q).2.1.dbm = st.dbm
      ∧ (HandleQuery eng st q).2.2 = [])
    ∧ (strHasSub (strLower (strTrim q)) "@" = false →
      classifyQuery q = .passThrough) := by
  have hc := classify_of_set_start q hpre
  constructor
  · intro hat
    rw [hat] at hc
    simp only [if_true] at hc
    refine ⟨hc, ?_, ?_⟩
    · simp only [HandleQuery, hc]
      cases hset : HandleSet st.session q <;> simp
    · simp only [HandleQuery, hc]
      cases hset : HandleSet st.session q <;> simp
  · intro hat
    rw [hat] at hc
    simpa using hc

/-- C3 counterexample: "SET autocommit = 1" matches the assignment grammar
with zero @ signs, yet the dispatcher classifies it pass-through and it
reaches the tenant store (a read attempt followed by an exec attempt). -/
theorem spec2proof_C3_counterexample :
    findSetMatch ("SET autocommit = 1").toList
      = some ⟨0, "autocommit", "=", "1"⟩
    ∧ classifyQuery "SET autocommit = 1" = .passThrough
    ∧ (HandleQuery failEngine initialServerState "SET autocommit = 1").2.2
      = [.readQ "default" "SET autocommit = 1",
         .execQ "default" "SET autocommit = 1"] := by
  refine ⟨by decide, by decide, ?_⟩
  rfl

/-- C3 witness: "SET @idx = 5" matches the grammar, contains an @, and is
dispatched as an assignment that leaves the store registry untouched. -/
theorem spec2proof_C3_witness :
    strStarts (strLower (strTrim "SET @idx = 5")) "set " = true
    ∧ findSetMatch ("SET @idx = 5").toList = some ⟨1, "idx", "=", "5"⟩
    ∧ strHasSub (strLower (strTrim "SET @idx = 5")) "@" = true
    ∧ (classifyQuery "SET @idx = 5" = .setCmd
       ∧ (HandleQuery failEngine initialServerState "SET @idx = 5").2.1.dbm
           = initialServerState.dbm
       ∧ (HandleQuery failEngine initialServerState "SET @idx = 5").2.2 = []) :=
  ⟨by decide, by decide, by decide,
   (spec2proof_C3_amended failEngine initialServerState "SET @idx = 5"
     ⟨1, "idx", "=", "5"⟩ (by decide) (by decide)).1 (by decide)⟩

/-- C4: SET value-literal conversion — NULL (any case) unsets, true/1 give
integer 1, false/0 give integer 0, an Atoi-parsable value gives that
integer, anything else gives the quote-stripped literal string; and after
SET @idx = NULL the tenant binding is gone, so the session resolves to the
default store. -/
theorem spec2proof_C4 (raw : String) (s : SessionVariables)
    (dm : DatabaseManager) (stDef : Store)
    (hdef : dm.databases.lookup "default" = some stDef) :
    (strLower (trimQuotes raw) = "null" → parseSetValue raw = none)
    ∧ (strLower (trimQuotes raw) = "true" ∨ trimQuotes raw = "1" →
        parseSetValue raw = some (.vInt 1))
    ∧ (strLower (trimQuotes raw) = "false" ∨ trimQuotes raw = "0" →
        parseSetValue raw = some (.vInt 0))
    ∧ (∀ n : Int, strLower (trimQuotes raw) ≠ "null" →
        strLower (trimQuotes raw) ≠ "true" → trimQuotes raw ≠ "1" →
        strLower (trimQuotes raw) ≠ "false" → trimQuotes raw ≠ "0" →
        goAtoi (trimQuotes raw) = some n →
        parseSetValue raw = some (.vInt n))
    ∧ (strLower (trimQuotes raw) ≠ "null" →
        strLower (trimQuotes raw) ≠ "true" → trimQuotes raw ≠ "1" →
        strLower (trimQuotes raw) ≠ "false" → trimQuotes raw ≠ "0" →
        goAtoi (trimQuotes raw) = none →
        parseSetValue raw = some (.vStr (trimQuotes raw)))
    ∧ (HandleSet s "SET @idx = NULL" = .ok (s.unsetUser "idx")
       ∧ (s.unsetUser "idx").getUser "idx" = none
       ∧ GetDatabaseForSession dm (s.unsetUser "idx") = (stDef, dm)) := by
  refine ⟨?_, ?_, ?_, ?_, ?_, ?_, ?_, ?_⟩ <;> try skip
  case _ => intro h; simp [parseSetValue, h]
  case _ =>
    rintro (h | h)
    · by_cases hv : trimQuotes raw = "1"
      · rw [hv] at h
        exact absurd h (by decide)
      · simp [parseSetValue, h, hv]
    · simp only [parseSetValue, h]
      decide
  case _ =>
    rintro (h | h)
    · by_cases hv : trimQuotes raw = "1"
      · rw [hv] at h
        exact absurd h (by decide)
      · simp [parseSetValue, h, hv]
    · simp only [parseSetValue, h]
      decide
  case _ =>
    intro n h1 h2 h3 h4 h5 h6
    simp [parseSetValue, h1, h2, h3, h4, h5, h6]
  case _ =>
    intro h1 h2 h3 h4 h5 h6
    simp [parseSetValue, h1, h2, h3, h4, h5, h6]
  case _ => rfl
  case _ =>
    have : (s.unsetUser "idx").getUser "idx"
        = (s.userVars.filter (fun p => p.1 ≠ "idx")).lookup "idx" := rfl
    rw [this]
    exact lookup_filter_ne _ _
  case _ =>
    have h1 : (s.unsetUser "idx").getUser "idx" = none := by
      have : (s.unsetUser "idx").getUser "idx"
          = (s.userVars.filter (fun p => p.1 ≠ "idx")).lookup "idx" := rfl
      rw [this]
      exact lookup_filter_ne _ _
    simp [GetDatabaseForSession, sessionIdx, h1, GetOrCreateDatabase,
      normalizeIdx, hdef]

/-- C4 witness at raw value "42" and a fresh session against a fresh
registry. -/
theorem spec2proof_C4_witness :
    newDatabaseManager.databases.lookup "default" = some (newStore 0)
    ∧ strLower (trimQuotes "42") ≠ "null"
    ∧ goAtoi (trimQuotes "42") = some 42
    ∧ parseSetValue "42" = some (.vInt 42)
    ∧ (HandleSet newSessionVariables "SET @idx = NULL"
        = .ok (newSessionVariables.unsetUser "idx")
       ∧ (newSessionVariables.unsetUser "idx").getUser "idx" = none
       ∧ GetDatabaseForSession newDatabaseManager (newSessionVariables.unsetUser "idx")
           = (newStore 0, newDatabaseManager)) :=
  ⟨by rfl, by decide, by decide,
   (spec2proof_C4 "42" newSessionVariables newDatabaseManager (newStore 0)
      (by rfl)).2.2.2.1 42 (by decide) (by decide) (by decide) (by decide)
      (by decide) (by decide),
   (spec2proof_C4 "42" newSessionVariables newDatabaseManager (newStore 0)
      (by rfl)).2.2.2.2.2⟩

/-- C5 amended: with exactly one variable reference the asymmetry holds —
an undefined user variable reads as NULL, an undefined session variable is
a hard unknown-variable error — but with two or more references both kinds
of undefined variable silently read as NULL and no error is raised. -/
theorem spec2proof_C5_amended (s : SessionVariables) (q : String) :
    (∀ nm, scanRefs q.toList = [(1, nm)] → s.getUser (strLower nm) = none →
      HandleSelectVariable s q = .ok ⟨["@" ++ strLower nm], [.vNull]⟩)
    ∧ (∀ nm, scanRefs q.toList = [(2, nm)] → s.getVar (strLower nm) = none →
      HandleSelectVariable s q
        = .error ("unknown session variable: " ++ strLower nm))
    ∧ (∀ m1 m2 rest, scanRefs q.toList = m1 :: m2 :: rest →
      HandleSelectVariable s q =
        .ok ⟨(m1 :: m2 :: rest).map
               (fun m => (if m.1 = 1 then "@" else "@@") ++ strLower m.2),
             (m1 :: m2 :: rest).map
               (fun m => (if m.1 = 1 then s.getUser (strLower m.2)
                          else s.getVar (strLower m.2)).getD .vNull)⟩) := by
  refine ⟨?_, ?_, ?_⟩
  · intro nm h hnone
    simp only [String.toList] at h
    simp [HandleSelectVariable, h, hnone]
  · intro nm h hnone
    simp only [String.toList] at h
    simp [HandleSelectVariable, h, hnone]
  · intro m1 m2 rest h
    obtain ⟨a1, n1⟩ := m1
    obtain ⟨a2, n2⟩ := m2
    simp only [String.toList] at h
    simp [HandleSelectVariable, h]

/-- C5 counterexample: a SELECT referencing two undefined session variables
is classified as a variable read and succeeds with a NULL row instead of
raising the unknown-variable error the claim promises for every such
statement. -/
theorem spec2proof_C5_counterexample :
    classifyQuery "select @@zzfoo, @@zzbar" = .selectVariable
    ∧ newSessionVariables.getVar "zzfoo" = none
    ∧ newSessionVariables.getVar "zzbar" = none
    ∧ HandleSelectVariable newSessionVariables "select @@zzfoo, @@zzbar"
      = .ok ⟨["@@zzfoo", "@@zzbar"], [.vNull, .vNull]⟩ := by
  refine ⟨by decide, by decide, by decide, ?_⟩
  have hscan : scanRefs ("select @@zzfoo, @@zzbar").toList
      = [(2, "zzfoo"), (2, "zzbar")] := by
    simp +decide [scanRefs, matchRefAt, listStarts, List.takeWhile, isWordChar]
  unfold HandleSelectVariable
  rw [hscan]
  rfl

/-- C5 witness: the single-reference asymmetry at concrete statements. -/
theorem spec2proof_C5_witness :
    scanRefs ("select @@zzfoo").toList = [(2, "zzfoo")]
    ∧ newSessionVariables.getVar "zzfoo" = none
    ∧ HandleSelectVariable newSessionVariables "select @@zzfoo"
        = .error "unknown session variable: zzfoo" := by
  have hscan : scanRefs ("select @@zzfoo").toList = [(2, "zzfoo")] := by
    simp +decide [scanRefs, matchRefAt, listStarts, List.takeWhile, isWordChar]
  refine ⟨hscan, by decide, ?_⟩
  have h := (spec2proof_C5_amended newSessionVariables "select @@zzfoo").2.1
    "zzfoo" hscan (by decide)
  simpa using h

/-- C6: pass-through execution tries the row-returning path first; when the
read attempt fails it retries exactly once as a mutation; when both fail,
the read-path error is discarded and the single surfaced error is the
translated exec error; the result/error pair is always exclusive — never a
partial result alongside an error. -/
theorem spec2proof_C6 (eng : Engine) (idx query : String) :
    (∀ rd, eng.runRead idx query = .ok rd →
      (executeSQLiteQuery eng idx query).2.2 = [.readQ idx query])
    ∧ (∀ e1, eng.runRead idx query = .error e1 →
      (executeSQLiteQuery eng idx query).2.2
          = [.readQ idx query, .execQ idx query]
      ∧ (∀ e2, eng.runExec idx query = .error e2 →
          (executeSQLiteQuery eng idx query).1 = none
          ∧ (executeSQLiteQuery eng idx query).2.1
              = some ("SQLite error: " ++ e2)))
    ∧ ¬ ((executeSQLiteQuery eng idx query).1.isSome
         ∧ (executeSQLiteQuery eng idx query).2.1.isSome)
    ∧ ((executeSQLiteQuery eng idx query).1.isSome
       ∨ (executeSQLiteQuery eng idx query).2.1.isSome) := by
  refine ⟨?_, ?_, ?_, ?_⟩
  · intro rd h
    simp [executeSQLiteQuery, h]
  · intro e1 h
    refine ⟨by simp [executeSQLiteQuery, h]; cases h2 : eng.runExec idx query <;> simp, ?_⟩
    intro e2 h2
    simp [executeSQLiteQuery, h, h2]
  · cases h : eng.runRead idx query with
    | ok rd => simp [executeSQLiteQuery, h]
    | error e1 =>
      cases h2 : eng.runExec idx query with
      | ok r => simp [executeSQLiteQuery, h, h2]
      | error e2 => simp [executeSQLiteQuery, h, h2]
  · cases h : eng.runRead idx query with
    | ok rd => simp [executeSQLiteQuery, h]
    | error e1 =>
      cases h2 : eng.runExec idx query with
      | ok r => simp [executeSQLiteQuery, h, h2]
      | error e2 => simp [executeSQLiteQuery, h, h2]

/-- C6 witness: an engine on which both attempts fail. -/
theorem spec2proof_C6_witness :
    failEngine.runRead "default" "NOT SQL" = .error "read failed"
    ∧ failEngine.runExec "default" "NOT SQL" = .error "exec failed"
    ∧ (executeSQLiteQuery failEngine "default" "NOT SQL").2.2
        = [.readQ "default" "NOT SQL", .execQ "default" "NOT SQL"]
    ∧ (executeSQLiteQuery failEngine "default" "NOT SQL").1 = none
    ∧ (executeSQLiteQuery failEngine "default" "NOT SQL").2.1
        = some "SQLite error: exec failed" :=
  ⟨rfl, rfl,
   ((spec2proof_C6 failEngine "default" "NOT SQL").2.1 "read failed" rfl).1,
   (((spec2proof_C6 failEngine "default" "NOT SQL").2.1 "read failed" rfl).2
      "exec failed" rfl).1,
   (((spec2proof_C6 failEngine "default" "NOT SQL").2.1 "read failed" rfl).2
      "exec failed" rfl).2⟩

theorem getQueryLogs_eq (s : QLState) (tenantID : String) (limit offset : Int)
    (t0 t1 : Option Nat) :
    (GetQueryLogs s tenantID limit offset t0 t1).1 =
      (if limit > 0 then
        if offset > 0 then
          .ok (((matchingSorted s tenantID t0 t1).drop offset.toNat).take limit.toNat)
        else .ok ((matchingSorted s tenantID t0 t1).take limit.toNat)
      else if offset > 0 then .error "failed to query logs: near OFFSET: syntax error"
      else .ok (matchingSorted s tenantID t0 t1)) := rfl

theorem matchingSorted_sorted (s : QLState) (tenantID : String)
    (t0 t1 : Option Nat) : (matchingSorted s tenantID t0 t1).Sorted entGE :=
  List.sorted_insertionSort _ _

theorem matchingSorted_matches (s : QLState) (tenantID : String)
    (t0 t1 : Option Nat) :
    ∀ e ∈ matchingSorted s tenantID t0 t1,
      logRowMatches tenantID t0 t1 e = true := by
  intro e he
  have hperm := List.perm_insertionSort entGE
    ((getOrCreateLogDatabase s tenantID).1.filter (logRowMatches tenantID t0 t1))
  exact (List.mem_filter.mp (hperm.mem_iff.mp he)).2

/-- C7 amended: GetQueryLogs orders the tenant's window-filtered entries by
execution time descending; limit 0 with offset 0 returns everything; a
positive limit takes a prefix; a positive offset with a positive limit
skips that many most-recent entries, making GetLogs(t,1,0) and
GetLogs(t,1,1) disjoint when at least two distinct entries match; but a
positive offset with limit 0 fails, because the generated SQL then has an
OFFSET clause with no LIMIT clause. -/
theorem spec2proof_C7_amended (s : QLState) (tenantID : String)
    (limit offset : Int) (t0 t1 : Option Nat) :
    (∀ l, (GetQueryLogs s tenantID limit offset t0 t1).1 = .ok l →
      l.Sorted entGE ∧ ∀ e ∈ l, logRowMatches tenantID t0 t1 e = true)
    ∧ (limit = 0 → offset ≤ 0 →
      (GetQueryLogs s tenantID limit offset t0 t1).1
        = .ok (matchingSorted s tenantID t0 t1))
    ∧ (limit > 0 → offset ≤ 0 →
      (GetQueryLogs s tenantID limit offset t0 t1).1
        = .ok ((matchingSorted s tenantID t0 t1).take limit.toNat))
    ∧ (limit > 0 → offset > 0 →
      (GetQueryLogs s tenantID limit offset t0 t1).1
        = .ok (((matchingSorted s tenantID t0 t1).drop offset.toNat).take limit.toNat))
    ∧ (limit = 0 → offset > 0 →
      (GetQueryLogs s tenantID limit offset t0 t1).1
        = .error "failed to query logs: near OFFSET: syntax error")
    ∧ (2 ≤ (matchingSorted s tenantID t0 t1).length →
      ((matchingSorted s tenantID t0 t1).map (·.id)).Nodup →
      ∀ l1 l2, (GetQueryLogs s tenantID 1 0 t0 t1).1 = .ok l1 →
        (GetQueryLogs s tenantID 1 1 t0 t1).1 = .ok l2 → l1 ≠ l2) := by
  have hsorted := matchingSorted_sorted s tenantID t0 t1
  have hmatch := matchingSorted_matches s tenantID t0 t1
  refine ⟨?_, ?_, ?_, ?_, ?_, ?_⟩
  · intro l hl
    rw [getQueryLogs_eq] at hl
    by_cases h1 : limit > 0 <;> by_cases h2 : offset > 0 <;>
      simp only [h1, h2, if_true, if_false] at hl
    · cases hl
      constructor
      · exact (hsorted.sublist (List.drop_sublist _ _)).sublist (List.take_sublist _ _)
      · intro e he
        exact hmatch e
          ((List.drop_sublist _ _).mem ((List.take_sublist _ _).mem he))
    · cases hl
      constructor
      · exact hsorted.sublist (List.take_sublist _ _)
      · intro e he
        exact hmatch e ((List.take_sublist _ _).mem he)
    · cases hl
    · cases hl
      exact ⟨hsorted, hmatch⟩
  · intro h1 h2
    rw [getQueryLogs_eq]
    have h1' : ¬ (limit > 0) := by omega
    have h2' : ¬ (offset > 0) := by omega
    simp only [h1', h2', if_false]
  · intro h1 h2
    rw [getQueryLogs_eq]
    have h2' : ¬ (offset > 0) := by omega
    simp only [h1, h2', if_true, if_false]
  · intro h1 h2
    rw [getQueryLogs_eq]
    simp only [h1, h2, if_true]
  · intro h1 h2
    rw [getQueryLogs_eq]
    have h1' : ¬ (limit > 0) := by omega
    simp only [h1', h2, if_true, if_false]
  · intro hlen hnd l1 l2 h1 h2
    rw [getQueryLogs_eq] at h1 h2
    simp only [show (1 : Int) > 0 from by omega, show ¬ ((0 : Int) > 0) from by omega,
      if_true, if_false] at h1 h2
    obtain ⟨a, rest1, hs1⟩ : ∃ a rest1, matchingSorted s tenantID t0 t1 = a :: rest1 := by
      cases hms : matchingSorted s tenantID t0 t1 with
      | nil => rw [hms] at hlen; simp at hlen
      | cons a r => exact ⟨a, r, rfl⟩
    obtain ⟨b, rest2, hs2⟩ : ∃ b rest2, rest1 = b :: rest2 := by
      cases hr : rest1 with
      | nil => rw [hs1, hr] at hlen; simp at hlen
      | cons b r => exact ⟨b, r, rfl⟩
    rw [hs1, hs2] at h1 h2 hnd
    simp only [List.take, List.drop] at h1 h2
    cases h1
    cases h2
    intro hcontra
    have hab : a = b := by
      have := List.cons.injEq a [] b [] ▸ hcontra
      simpa using hcontra
    have : a.id ∉ (b :: rest2).map (·.id) := by
      simp only [List.map_cons] at hnd
      exact (List.nodup_cons.mp hnd).1
    rw [hab] at this
    simp at this

/-- A logger state holding two entries for tenant "t" at times 10 and 20. -/
def qlTwo : QLState :=
  LogQuery (LogQuery emptyQL "t" "q1" "c1" 10 5 true "") "t" "q2" "c1" 20 7 true ""

/-- C7 counterexample: with two entries present, limit 0 and offset 1, the
call fails with the OFFSET-without-LIMIT syntax error instead of skipping
the most recent entry as the claimed pagination semantics would. -/
theorem spec2proof_C7_counterexample :
    2 ≤ (matchingSorted qlTwo "t" none none).length
    ∧ (GetQueryLogs qlTwo "t" 0 1 none none).1
        = .error "failed to query logs: near OFFSET: syntax error" :=
  ⟨by decide, by rfl⟩

/-- C7 witness: the two pages of size one are distinct, most-recent first. -/
theorem spec2proof_C7_witness :
    2 ≤ (matchingSorted qlTwo "t" none none).length
    ∧ ((matchingSorted qlTwo "t" none none).map (·.id)).Nodup
    ∧ (GetQueryLogs qlTwo "t" 1 0 none none).1
        = .ok [⟨2, "t", "q2", 20, 7, true, "", "c1"⟩]
    ∧ (GetQueryLogs qlTwo "t" 1 1 none none).1
        = .ok [⟨1, "t", "q1", 10, 5, true, "", "c1"⟩]
    ∧ ([(⟨2, "t", "q2", 20, 7, true, "", "c1"⟩ : LogEntry)]
        ≠ [(⟨1, "t", "q1", 10, 5, true, "", "c1"⟩ : LogEntry)]) :=
  ⟨by decide, by decide, by rfl, by rfl,
   (spec2proof_C7_amended qlTwo "t" 1 0 none none).2.2.2.2.2
     (by decide) (by decide) _ _ (by rfl) (by rfl)⟩

/-- The rows GetQueryLogStats aggregates over. -/
def statsRows (s : QLState) (tenantID : String) : List LogEntry :=
  (getOrCreateLogDatabase s tenantID).1.filter (fun e => e.tenantId = tenantID)

theorem length_filter_not {α : Type} (p : α → Bool) (l : List α) :
    (l.filter (fun a => !p a)).length = l.length - (l.filter p).length := by
  induction l with
  | nil => rfl
  | cons a t ih =>
    have hle := List.length_filter_le p t
    by_cases h : p a
    · simp [List.filter_cons, h, ih]
    · simp [List.filter_cons, h, ih]
      omega

theorem foldr_max_mem (d : Int) (ds : List Int) : ds.foldr max d ∈ d :: ds := by
  induction ds generalizing d with
  | nil => simp
  | cons e es ih =>
    simp only [List.foldr_cons]
    rcases le_total e (es.foldr max d) with h | h
    · rw [max_eq_right h]
      rcases List.mem_cons.mp (ih d) with h1 | h1
      · exact List.mem_cons.mpr (Or.inl h1)
      · simp [List.mem_cons, h1]
    · rw [max_eq_left h]
      simp

theorem foldr_max_ge (d : Int) (ds : List Int) :
    ∀ x ∈ d :: ds, x ≤ ds.foldr max d := by
  induction ds generalizing d with
  | nil =>
    intro x hx
    simp at hx
    simp [hx]
  | cons e es ih =>
    intro x hx
    simp only [List.foldr_cons]
    simp only [List.mem_cons] at hx
    rcases hx with h1 | h1 | h1
    · subst h1
      exact le_trans (ih x x (by simp)) (le_max_right _ _)
    · subst h1
      exact le_max_left _ _
    · exact le_trans (ih d x (by simp [h1])) (le_max_right _ _)

theorem foldr_min_mem (d : Int) (ds : List Int) : ds.foldr min d ∈ d :: ds := by
  induction ds generalizing d with
  | nil => simp
  | cons e es ih =>
    simp only [List.foldr_cons]
    rcases le_total (es.foldr min d) e with h | h
    · rw [min_eq_right h]
      rcases List.mem_cons.mp (ih d) with h1 | h1
      · exact List.mem_cons.mpr (Or.inl h1)
      · simp [List.mem_cons, h1]
    · rw [min_eq_left h]
      simp

theorem foldr_min_le (d : Int) (ds : List Int) :
    ∀ x ∈ d :: ds, ds.foldr min d ≤ x := by
  induction ds generalizing d with
  | nil =>
    intro x hx
    simp at hx
    simp [hx]
  | cons e es ih =>
    intro x hx
    simp only [List.foldr_cons]
    simp only [List.mem_cons] at hx
    rcases hx with h1 | h1 | h1
    · subst h1
      exact le_trans (min_le_right _ _) (ih x x (by simp))
    · subst h1
      exact min_le_left _ _
    · exact le_trans (min_le_right _ _) (ih d x (by simp [h1]))

/-- C8: over the tenant's N logged rows with S successes the stats report
total N, successful S, failed N−S, a success rate of exactly S/N·100 (0
when N is 0, never dividing by zero), and min/avg/max taken only from the
logged durations (each 0 when there are no rows): the max and min are
members of the duration list bounding it, and the average is its sum over
N. -/
theorem spec2proof_C8 (s : QLState) (tenantID : String) :
    (GetQueryLogStats s tenantID).1.totalQueries = (statsRows s tenantID).length
    ∧ (GetQueryLogStats s tenantID).1.successfulQueries
        = ((statsRows s tenantID).filter (fun e => e.success)).length
    ∧ (GetQueryLogStats s tenantID).1.failedQueries
        = (statsRows s tenantID).length
          - ((statsRows s tenantID).filter (fun e => e.success)).length
    ∧ ((statsRows s tenantID).length = 0 →
        (GetQueryLogStats s tenantID).1.successRate = 0)
    ∧ ((statsRows s tenantID).length ≠ 0 →
        (GetQueryLogStats s tenantID).1.successRate
          = (((statsRows s tenantID).filter (fun e => e.success)).length : ℚ)
            / ((statsRows s tenantID).length : ℚ) * 100)
    ∧ (statsRows s tenantID = [] →
        (GetQueryLogStats s tenantID).1.maxDurationMs = 0
        ∧ (GetQueryLogStats s tenantID).1.minDurationMs = 0
        ∧ (GetQueryLogStats s tenantID).1.avgDurationMs = 0)
    ∧ (statsRows s tenantID ≠ [] →
        ((GetQueryLogStats s tenantID).1.maxDurationMs
            ∈ (statsRows s tenantID).map (·.durationMs)
          ∧ ∀ x ∈ (statsRows s tenantID).map (·.durationMs),
              x ≤ (GetQueryLogStats s tenantID).1.maxDurationMs)
        ∧ ((GetQueryLogStats s tenantID).1.minDurationMs
            ∈ (statsRows s tenantID).map (·.durationMs)
          ∧ ∀ x ∈ (statsRows s tenantID).map (·.durationMs),
              (GetQueryLogStats s tenantID).1.minDurationMs ≤ x)
        ∧ (GetQueryLogStats s tenantID).1.avgDurationMs
            = ((((statsRows s tenantID).map (·.durationMs)).foldr (· + ·) 0 : Int) : ℚ)
              / (((statsRows s tenantID).length : Nat) : ℚ)) := by
  have hrate : (GetQueryLogStats s tenantID).1.successRate
      = (if (statsRows s tenantID).length > 0 then
          (((statsRows s tenantID).filter (fun e => e.success)).length : ℚ)
            / ((statsRows s tenantID).length : ℚ) * 100
         else 0) := rfl
  have hmax : (GetQueryLogStats s tenantID).1.maxDurationMs
      = (match (statsRows s tenantID).map (·.durationMs) with
         | [] => 0
         | d :: ds => ds.foldr max d) := rfl
  have hmin : (GetQueryLogStats s tenantID).1.minDurationMs
      = (match (statsRows s tenantID).map (·.durationMs) with
         | [] => 0
         | d :: ds => ds.foldr min d) := rfl
  have havg : (GetQueryLogStats s tenantID).1.avgDurationMs
      = (if (statsRows s tenantID).length = 0 then 0
         else ((((statsRows s tenantID).map (·.durationMs)).foldr (· + ·) 0 : Int) : ℚ)
            / (((statsRows s tenantID).length : Nat) : ℚ)) := rfl
  refine ⟨rfl, rfl, ?_, ?_, ?_, ?_, ?_⟩
  · have : (GetQueryLogStats s tenantID).1.failedQueries
        = ((statsRows s tenantID).filter (fun e => !e.success)).length := rfl
    rw [this]
    exact length_filter_not _ _
  · intro h
    rw [hrate]
    simp [h]
  · intro h
    rw [hrate]
    rw [if_pos (Nat.pos_of_ne_zero h)]
  · intro h
    rw [hmax, hmin, havg]
    rw [h]
    simp
  · intro h
    cases hrows : statsRows s tenantID with
    | nil => exact absurd hrows h
    | cons a t =>
      rw [hmax, hmin, havg, hrows]
      simp only [List.map_cons, List.length_cons]
      refine ⟨⟨?_, ?_⟩, ⟨?_, ?_⟩, ?_⟩
      · exact foldr_max_mem a.durationMs (t.map (·.durationMs))
      · exact foldr_max_ge a.durationMs (t.map (·.durationMs))
      · exact foldr_min_mem a.durationMs (t.map (·.durationMs))
      · exact foldr_min_le a.durationMs (t.map (·.durationMs))
      · rw [if_neg (by omega)]

/-- Four logged entries for tenant "t", three successful. -/
def qlStats4 : QLState :=
  LogQuery (LogQuery (LogQuery (LogQuery emptyQL
    "t" "q1" "c1" 10 4 true "")
    "t" "q2" "c1" 20 6 true "")
    "t" "q3" "c1" 30 8 true "")
    "t" "q4" "c1" 40 2 false "boom"

/-- C8 witness: four entries, three successful, rate exactly 75. -/
theorem spec2proof_C8_witness :
    (statsRows qlStats4 "t").length = 4
    ∧ ((statsRows qlStats4 "t").filter (fun e => e.success)).length = 3
    ∧ (GetQueryLogStats qlStats4 "t").1.totalQueries = 4
    ∧ (GetQueryLogStats qlStats4 "t").1.failedQueries = 1
    ∧ (GetQueryLogStats qlStats4 "t").1.successRate = 75 := by
  refine ⟨by decide, by decide, ?_, ?_, ?_⟩
  · rw [(spec2proof_C8 qlStats4 "t").1]
    decide
  · rw [(spec2proof_C8 qlStats4 "t").2.2.1]
    decide
  · rw [(spec2proof_C8 qlStats4 "t").2.2.2.2.1 (by decide)]
    have h1 : ((statsRows qlStats4 "t").filter (fun e => e.success)).length = 3 := by
      decide
    have h2 : (statsRows qlStats4 "t").length = 4 := by decide
    rw [h1, h2]
    norm_num

theorem normalizeIdx_idem (t : String) :
    normalizeIdx (normalizeIdx t) = normalizeIdx t := by
  unfold normalizeIdx
  by_cases h : t = "" <;> simp [h]

theorem keys_alSetLog (m : List (String × List LogEntry)) (k : String)
    (v : List LogEntry) : (alSetLog m k v).map (·.1) = m.map (·.1) := by
  unfold alSetLog
  rw [List.map_map]
  apply List.map_congr_left
  intro p _
  simp only [Function.comp_apply]
  by_cases h : p.1 = k <;> simp [h]

theorem keys_getOrCreate (s : QLState) (t : String) (x : String) :
    (x ∈ ListTenantLogs (getOrCreateLogDatabase s t).2 ↔
      x ∈ ListTenantLogs s ∨ x = normalizeIdx t) := by
  unfold getOrCreateLogDatabase ListTenantLogs
  cases h : s.logDatabases.lookup (normalizeIdx t) with
  | some db =>
    simp only [h]
    have hmem := lookup_eq_some_mem _ _ _ h
    have hk : normalizeIdx t ∈ s.logDatabases.map (·.1) :=
      List.mem_map.mpr ⟨(normalizeIdx t, db), hmem, rfl⟩
    constructor
    · exact Or.inl
    · rintro (hx | hx)
      · exact hx
      · exact hx ▸ hk
  | none =>
    simp only [h]
    simp [List.map_append]

theorem keys_LogQuery (s : QLState) (t q c : String) (time : Nat) (dur : Int)
    (succ : Bool) (err : String) (x : String) :
    (x ∈ ListTenantLogs (LogQuery s t q c time dur succ err) ↔
      x ∈ ListTenantLogs s ∨ x = normalizeIdx t) := by
  unfold LogQuery
  simp only [ListTenantLogs]
  rw [keys_alSetLog]
  have := keys_getOrCreate s (normalizeIdx t) x
  rw [normalizeIdx_idem] at this
  exact this

theorem applyOp_keys (s : QLState) (op : QLOp) (x : String) :
    (x ∈ ListTenantLogs (applyOp s op) ↔
      x ∈ ListTenantLogs s ∨ x = normalizeIdx (opTenant op)) := by
  cases op with
  | logQ t q c time dur succ err => exact keys_LogQuery s t q c time dur succ err x
  | getLogs t limit offset t0 t1 => exact keys_getOrCreate s t x
  | getStats t => exact keys_getOrCreate s t x

theorem foldl_keys (ops : List QLOp) (s : QLState) (x : String) :
    (x ∈ ListTenantLogs (ops.foldl applyOp s) ↔
      x ∈ ListTenantLogs s ∨ ∃ op ∈ ops, normalizeIdx (opTenant op) = x) := by
  induction ops generalizing s with
  | nil => simp
  | cons op rest ih =>
    simp only [List.foldl_cons]
    rw [ih, applyOp_keys]
    constructor
    · rintro ((hx | hx) | ⟨op', hmem, heq⟩)
      · exact Or.inl hx
      · exact Or.inr ⟨op, by simp, hx.symm⟩
      · exact Or.inr ⟨op', by simp [hmem], heq⟩
    · rintro (hx | ⟨op', hmem, heq⟩)
      · exact Or.inl (Or.inl hx)
      · rcases List.mem_cons.mp hmem with rfl | hmem'
        · exact Or.inl (Or.inr heq.symm)
        · exact Or.inr ⟨op', hmem', heq⟩

/-- C9 amended: after any sequence of audit-log operations on a fresh
logger, ListTenantLogs lists exactly the (normalized) tenant ids touched by
some operation — a LogQuery, but equally a GetQueryLogs or a
GetQueryLogStats read, each of which creates the tenant's log database as a
side effect. -/
theorem spec2proof_C9_amended (ops : List QLOp) (x : String) :
    (x ∈ ListTenantLogs (ops.foldl applyOp emptyQL) ↔
      ∃ op ∈ ops, normalizeIdx (opTenant op) = x) := by
  rw [foldl_keys]
  simp [ListTenantLogs, emptyQL]

/-- C9 counterexample: a single stats read for "ghost" — no entry was ever
logged — leaves "ghost" listed by ListTenantLogs, with an empty log. -/
theorem spec2proof_C9_counterexample :
    ListTenantLogs (applyOp emptyQL (.getStats "ghost")) = ["ghost"]
    ∧ (applyOp emptyQL (.getStats "ghost")).logDatabases = [("ghost", [])] :=
  ⟨rfl, rfl⟩

/-- C9 witness: a tenant that did log an entry is listed. -/
theorem spec2proof_C9_witness :
    "ghost" ∈ ListTenantLogs
      ([QLOp.logQ "ghost" "SELECT 1" "c" 5 1 true ""].foldl applyOp emptyQL) :=
  (spec2proof_C9_amended [QLOp.logQ "ghost" "SELECT 1" "c" 5 1 true ""]
     "ghost").mpr
    ⟨QLOp.logQ "ghost" "SELECT 1" "c" 5 1 true "", by decide, by decide⟩

/-- C10: for every statement the dispatcher classifies as DESCRIBE/DESC,
any occurrence of the substring "users" in the lower-cased text makes the
handler introspect the table "users" (whatever table was actually named);
failing that, any occurrence of "products" selects "products"; only when
neither substring occurs is the table taken from the second
whitespace-separated word. -/
theorem spec2proof_C10 (q : String) (st : Store)
    (_hq : classifyQuery q = .describeTable) :
    (strHasSub (strLower q) "users" = true →
      describeTarget q = some "users"
      ∧ HandleDescribe st q = introspect st "users")
    ∧ (strHasSub (strLower q) "users" = false →
      strHasSub (strLower q) "products" = true →
      describeTarget q = some "products"
      ∧ HandleDescribe st q = introspect st "products")
    ∧ (strHasSub (strLower q) "users" = false →
      strHasSub (strLower q) "products" = false →
      describeTarget q = (goFields (strLower q)).get? 1
      ∧ (∀ tbl, describeTarget q = some tbl →
          HandleDescribe st q = introspect st tbl)) := by
  refine ⟨?_, ?_, ?_⟩
  · intro h
    have ht : describeTarget q = some "users" := by
      simp [describeTarget, h]
    exact ⟨ht, by simp [HandleDescribe, ht]⟩
  · intro h1 h2
    have ht : describeTarget q = some "products" := by
      simp [describeTarget, h1, h2]
    exact ⟨ht, by simp [HandleDescribe, ht]⟩
  · intro h1 h2
    constructor
    · simp only [describeTarget, h1, h2, Bool.false_eq_true, if_false]
      cases hf : goFields (strLower q) with
      | nil => rfl
      | cons a t =>
        cases t with
        | nil => rfl
        | cons b r => rfl
    · intro tbl ht
      simp [HandleDescribe, ht]

/-- C10 witness: DESCRIBE old_users_backup introspects the users table of
the seeded store, not a table named old_users_backup. -/
theorem spec2proof_C10_witness :
    classifyQuery "DESCRIBE old_users_backup" = .describeTable
    ∧ strHasSub (strLower "DESCRIBE old_users_backup") "users" = true
    ∧ (describeTarget "DESCRIBE old_users_backup" = some "users"
       ∧ HandleDescribe (newStore 0) "DESCRIBE old_users_backup"
           = introspect (newStore 0) "users") :=
  ⟨by decide, by decide,
   (spec2proof_C10 "DESCRIBE old_users_backup" (newStore 0) (by decide)).1
     (by decide)⟩
